import Mathlib

/-!
Verification development for the trade-journal application
(src/tradejournal/src/main.js): a shallow embedding of its persistence
and aggregation layer, with theorems checking the specification's claims.

JavaScript numbers coming out of `parseFloat` on form fields are modelled
ideally: `JSNum.nan` for an unparseable input, `JSNum.num q` for an input
parsing to the rational `q`.  SQLite tables are modelled as lists of row
records; the `db.select` / `db.execute` calls of each store function are
modelled by pure functions on those lists, and the promise rejection
behaviour of each store function (its try/catch structure) is modelled by
functions over `Except StoreErr` inputs.
-/

/-- Ideal model of a JavaScript number as produced by `parseFloat` on a
form field: `nan` for an unparseable input, otherwise a rational value. -/
inductive JSNum where
  | nan : JSNum
  | num (q : ℚ) : JSNum
  deriving DecidableEq

/-- JavaScript `+` on numbers: any NaN operand yields NaN. -/
def jsAdd : JSNum → JSNum → JSNum
  | JSNum.num a, JSNum.num b => JSNum.num (a + b)
  | _, _ => JSNum.nan

/-- JavaScript `x > 0` on a number: false for NaN. -/
def jsGtZero : JSNum → Bool
  | JSNum.nan => false
  | JSNum.num q => decide (0 < q)

/-- JavaScript truthiness of a number: NaN and 0 are falsy. -/
def jsTruthy : JSNum → Bool
  | JSNum.nan => false
  | JSNum.num q => decide (q ≠ 0)

/-- The finite value of a `JSNum`, with 0 as a default for NaN.  Used only
to state theorems whose hypotheses rule the NaN case out. -/
def finVal : JSNum → ℚ
  | JSNum.nan => 0
  | JSNum.num q => q

/-- Numeric value of JavaScript `toFixed digits` applied to the exact
rational `q`: round to `digits` decimal places, ties to the larger value. -/
def toFixedVal (digits : ℕ) (q : ℚ) : ℚ :=
  (⌊q * 10 ^ digits + 1 / 2⌋ : ℚ) / 10 ^ digits

/-- ASCII decimal rendering of a nonnegative integer `n` scaled down by
`10 ^ 2`, as JavaScript `toFixed(2)` prints it, e.g. `fixed2Digits 150`
is the string for 1.50. -/
def fixed2Digits (n : ℕ) : String :=
  toString (n / 100) ++ "." ++ (if n % 100 < 10 then "0" else "") ++ toString (n % 100)

/-- A trade record as produced by `loadTrades`: the camelCased image of a
`trades` table row (main.js lines 303-321). -/
structure Trade where
  id : ℕ
  accountId : ℕ
  symbol : String
  type : String
  entryPrice : JSNum
  exitPrice : Option ℚ
  takeProfit : JSNum
  stopLoss : JSNum
  lotSize : JSNum
  volume : JSNum
  profit : JSNum
  commission : ℚ
  rrRatio : String
  strategy : String
  session : String
  duration : String
  date : String
  deriving DecidableEq

/-- The four values `updateStats` computes.  `totalPnL` and `totalVolume`
are the raw reduced sums; `winRate` is the numeric value of the
`toFixed(1)`-formatted percentage the code produces. -/
structure Stats where
  totalPnL : JSNum
  tradeCount : ℕ
  winRate : ℚ
  totalVolume : JSNum
  deriving DecidableEq

/-- Embedding of `updateStats` (main.js lines 351-364): returns `none`
when the trade collection is empty (the early `return`), otherwise the
computed statistics. -/
def updateStats (trades : List Trade) : Option Stats :=
  if trades.length = 0 then none
  else
    let totalPnL := trades.foldl (fun s t => jsAdd s t.profit) (JSNum.num 0)
    let wins := (trades.filter fun t => jsGtZero t.profit).length
    let winRate := toFixedVal 1 ((wins : ℚ) / (trades.length : ℚ) * 100)
    let totalVolume := trades.foldl (fun s t => jsAdd s t.volume) (JSNum.num 0)
    some { totalPnL := totalPnL, tradeCount := trades.length,
           winRate := winRate, totalVolume := totalVolume }

/-- The displayed statistics after `updateStats` runs: the DOM keeps the
previously displayed values when `updateStats` short-circuits. -/
def displayedStats (trades : List Trade) (prev : Option Stats) : Option Stats :=
  match updateStats trades with
  | none => prev
  | some s => some s

/-- Errors raised by the storage engine for a failing `db.select` or
`db.execute` call. -/
inductive StoreErr where
  | notConnected : StoreErr
  | writeFailed : StoreErr
  | readFailed : StoreErr
  deriving DecidableEq

/-- A row of the `profile` table (columns bound at main.js line 382). -/
structure ProfileRow where
  id : ℕ
  name : String
  email : String
  experience : String
  currency : String
  timezone : String
  deriving DecidableEq

/-- The record `loadProfile` hands back to the application. -/
structure Profile where
  name : String
  currency : String
  deriving DecidableEq

/-- SQLite `INSERT OR REPLACE` on a table whose PRIMARY KEY is `id`: any
existing row with the same id is replaced by the new row. -/
def insertOrReplaceProfile (table : List ProfileRow) (r : ProfileRow) : List ProfileRow :=
  r :: table.filter fun x => x.id != r.id

/-- The SQL statement `saveProfile` executes (main.js lines 381-384):
`INSERT OR REPLACE INTO profile ... VALUES (1, name, '', '', currency, '')`. -/
def upsertProfile (table : List ProfileRow) (name currency : String) : List ProfileRow :=
  insertOrReplaceProfile table
    { id := 1, name := name, email := "", experience := "",
      currency := currency, timezone := "" }

/-- The SQL statement `testDatabase` executes (main.js lines 462-465):
`INSERT OR REPLACE INTO profile ... VALUES (999, 'TestUser', 'test@test.com',
'beginner', 'USD', 'UTC')`. -/
def testDatabaseInsert (table : List ProfileRow) : List ProfileRow :=
  insertOrReplaceProfile table
    { id := 999, name := "TestUser", email := "test@test.com",
      experience := "beginner", currency := "USD", timezone := "UTC" }

/-- The SQL query `loadProfile` issues: `SELECT * FROM profile WHERE id = 1`. -/
def selectProfile (table : List ProfileRow) : List ProfileRow :=
  table.filter fun x => x.id == 1

/-- Embedding of `loadProfile` (main.js lines 398-414) applied to the
outcome of its `db.select` call.  First component: the returned value
(the first row's name and currency when the result is non-empty, else
`null`).  Second component: the error surfaced to the caller — always
`none`, because the catch block only logs and the function returns
`null` on any thrown error. -/
def loadProfile (res : Except StoreErr (List ProfileRow)) :
    Option Profile × Option StoreErr :=
  match res with
  | Except.ok [] => (none, none)
  | Except.ok (r :: _) => (some { name := r.name, currency := r.currency }, none)
  | Except.error _ => (none, none)

/-- The profile fetch against a successfully responding store holding
`table`. -/
def fetchProfile (table : List ProfileRow) : Option Profile :=
  (loadProfile (Except.ok (selectProfile table))).1

/-- Error behaviour of `saveProfile` (main.js lines 367-396) given the
outcome of its `db.execute` call: the catch block rethrows, so a storage
error is surfaced to the caller unchanged. -/
def saveProfile (res : Except StoreErr Unit) : Option StoreErr :=
  match res with
  | Except.ok _ => none
  | Except.error e => some e

/-- JavaScript `s || ''` on a string: the empty string is the only falsy
string, so the result is `s` itself in every case. -/
def jsOrEmpty (s : String) : String :=
  if s = "" then "" else s

/-- JavaScript `parseFloat(field) || null` (main.js line 243): NaN and 0
are falsy and collapse to `null`. -/
def jsOrNull : JSNum → Option ℚ
  | JSNum.nan => none
  | JSNum.num q => if q = 0 then none else some q

/-- JavaScript `parseFloat(field) || 0` (main.js line 249): NaN (and 0)
collapse to `0`. -/
def jsOrZero : JSNum → ℚ
  | JSNum.nan => 0
  | JSNum.num q => q

/-- The account record built by `setupAccountForm` (main.js lines
141-149): both balances come from parsing the same `initialBalance`
field. -/
structure AccountData where
  name : String
  type : String
  initialBalance : JSNum
  currentBalance : JSNum
  broker : String
  leverage : String
  instruments : String
  deriving DecidableEq

/-- A row of the `accounts` table. -/
structure AccountRow where
  id : ℕ
  name : String
  type : String
  initial_balance : JSNum
  current_balance : JSNum
  broker : String
  leverage : String
  instruments : String
  deriving DecidableEq

/-- An account record as mapped back by `loadAccounts` (main.js lines
179-188). -/
structure Account where
  id : ℕ
  name : String
  type : String
  initialBalance : JSNum
  currentBalance : JSNum
  broker : String
  leverage : String
  instruments : String
  deriving DecidableEq

/-- Embedding of the account object literal of `setupAccountForm`
(main.js lines 141-149). -/
def buildAccount (name typ : String) (initialBalanceField : JSNum)
    (broker leverage instruments : String) : AccountData :=
  { name := name, type := typ,
    initialBalance := initialBalanceField,
    currentBalance := initialBalanceField,
    broker := broker, leverage := leverage, instruments := instruments }

/-- The `accounts` table together with its autoincrement counter. -/
structure AccountDB where
  rows : List AccountRow
  nextId : ℕ
  deriving DecidableEq

/-- The `INSERT INTO accounts` statement `saveAccount` executes (main.js
lines 416-423): the row is appended as-is with the next autoincrement
id; no field is validated. -/
def insertAccount (db : AccountDB) (a : AccountData) : AccountDB :=
  { rows := db.rows ++
      [{ id := db.nextId, name := a.name, type := a.type,
         initial_balance := a.initialBalance,
         current_balance := a.currentBalance,
         broker := a.broker, leverage := a.leverage,
         instruments := jsOrEmpty a.instruments }],
    nextId := db.nextId + 1 }

/-- Row-to-record mapping of `loadAccounts` (main.js lines 179-188). -/
def rowToAccount (r : AccountRow) : Account :=
  { id := r.id, name := r.name, type := r.type,
    initialBalance := r.initial_balance, currentBalance := r.current_balance,
    broker := r.broker, leverage := r.leverage, instruments := r.instruments }

/-- Embedding of `loadAccounts` (main.js lines 173-193) applied to the
outcome of its `db.select` call.  First component: the resulting
`accounts` list (on a thrown error the catch block only logs, so the
previous list is kept).  Second component: the error surfaced to the
caller — always `none`, the error is swallowed. -/
def loadAccounts (res : Except StoreErr (List AccountRow)) (prev : List Account) :
    List Account × Option StoreErr :=
  match res with
  | Except.ok rows => (rows.map rowToAccount, none)
  | Except.error _ => (prev, none)

/-- Error behaviour of `saveAccount` (main.js lines 416-423) given the
outcome of its `db.execute` call: there is no try/catch, so a storage
error propagates to the caller unchanged. -/
def saveAccount (res : Except StoreErr Unit) : Option StoreErr :=
  match res with
  | Except.ok _ => none
  | Except.error e => some e

/-- The trade record built by `setupTradeForm` (main.js lines 238-255). -/
structure TradeData where
  accountId : ℕ
  symbol : String
  type : String
  entryPrice : JSNum
  exitPrice : Option ℚ
  takeProfit : JSNum
  stopLoss : JSNum
  lotSize : JSNum
  volume : JSNum
  profit : JSNum
  commission : ℚ
  rrRatio : String
  strategy : String
  session : String
  duration : String
  date : String
  deriving DecidableEq

/-- Embedding of the trade object literal of `setupTradeForm` (main.js
lines 238-255): `exitPrice` is `parseFloat(...) || null`, `commission`
is `parseFloat(...) || 0`, `date` is the submission timestamp. -/
def buildTrade (accountId : ℕ) (symbol typ : String)
    (entryField exitField tpField slField lotField volField profitField
      commissionField : JSNum)
    (rrField strategyField sessionField durationField : String)
    (now : String) : TradeData :=
  { accountId := accountId, symbol := symbol, type := typ,
    entryPrice := entryField,
    exitPrice := jsOrNull exitField,
    takeProfit := tpField, stopLoss := slField, lotSize := lotField,
    volume := volField, profit := profitField,
    commission := jsOrZero commissionField,
    rrRatio := rrField, strategy := strategyField, session := sessionField,
    duration := durationField, date := now }

/-- A row of the `trades` table. -/
structure TradeRow where
  id : ℕ
  account_id : ℕ
  symbol : String
  type : String
  entry_price : JSNum
  exit_price : Option ℚ
  take_profit : JSNum
  stop_loss : JSNum
  lot_size : JSNum
  volume : JSNum
  profit : JSNum
  commission : ℚ
  rr_ratio : String
  strategy : String
  session : String
  duration : String
  date : String
  deriving DecidableEq

/-- The `trades` table together with its autoincrement counter. -/
structure TradeDB where
  rows : List TradeRow
  nextId : ℕ
  deriving DecidableEq

/-- A fresh `trades` table. -/
def emptyTradeDB : TradeDB := { rows := [], nextId := 1 }

/-- The column values bound by the `INSERT INTO trades` statement of
`saveTrade` (main.js lines 425-449), with its `|| ''` string defaults,
at autoincrement id `i`. -/
def tradeToRow (i : ℕ) (t : TradeData) : TradeRow :=
  { id := i, account_id := t.accountId, symbol := t.symbol, type := t.type,
    entry_price := t.entryPrice, exit_price := t.exitPrice,
    take_profit := t.takeProfit, stop_loss := t.stopLoss,
    lot_size := t.lotSize, volume := t.volume, profit := t.profit,
    commission := t.commission,
    rr_ratio := jsOrEmpty t.rrRatio, strategy := jsOrEmpty t.strategy,
    session := jsOrEmpty t.session, duration := jsOrEmpty t.duration,
    date := t.date }

/-- The `INSERT INTO trades` statement of `saveTrade` as a table
transformation: append the row with the next autoincrement id. -/
def insertTrade (db : TradeDB) (t : TradeData) : TradeDB :=
  { rows := db.rows ++ [tradeToRow db.nextId t], nextId := db.nextId + 1 }

/-- Error behaviour of `saveTrade` (main.js lines 425-449) given the
outcome of its `db.execute` call: there is no try/catch, so a storage
error propagates to the caller unchanged. -/
def saveTrade (res : Except StoreErr Unit) : Option StoreErr :=
  match res with
  | Except.ok _ => none
  | Except.error e => some e

/-- The comparison `ORDER BY date DESC` sorts by: a row comes no later
than another when its date is no smaller. -/
def dateDesc (a b : TradeRow) : Prop := b.date ≤ a.date

instance : DecidableRel dateDesc :=
  fun a b => inferInstanceAs (Decidable (b.date ≤ a.date))

instance : IsTotal TradeRow dateDesc :=
  ⟨fun a b => le_total b.date a.date⟩

instance : IsTrans TradeRow dateDesc :=
  ⟨fun _ _ _ h1 h2 => le_trans h2 h1⟩

/-- The SQL query `loadTrades` issues (main.js line 300):
`SELECT * FROM trades WHERE account_id = ? ORDER BY date DESC`. -/
def selectTrades (db : TradeDB) (accountId : ℕ) : List TradeRow :=
  List.insertionSort dateDesc (db.rows.filter fun r => r.account_id == accountId)

/-- Row-to-record mapping of `loadTrades` (main.js lines 303-321). -/
def rowToTrade (r : TradeRow) : Trade :=
  { id := r.id, accountId := r.account_id, symbol := r.symbol, type := r.type,
    entryPrice := r.entry_price, exitPrice := r.exit_price,
    takeProfit := r.take_profit, stopLoss := r.stop_loss,
    lotSize := r.lot_size, volume := r.volume, profit := r.profit,
    commission := r.commission, rrRatio := r.rr_ratio,
    strategy := r.strategy, session := r.session, duration := r.duration,
    date := r.date }

/-- Embedding of `loadTrades` (main.js lines 297-326) applied to the
outcome of its `db.select` call.  First component: the resulting
`trades` list (on a thrown error the catch block only logs, so the
previous list is kept).  Second component: the error surfaced to the
caller — always `none`, the error is swallowed. -/
def loadTrades (res : Except StoreErr (List TradeRow)) (prev : List Trade) :
    List Trade × Option StoreErr :=
  match res with
  | Except.ok rows => (rows.map rowToTrade, none)
  | Except.error _ => (prev, none)

/-- The trade fetch for one account against a successfully responding
store holding `db`. -/
def listTradesForAccount (db : TradeDB) (accountId : ℕ) : List Trade :=
  (loadTrades (Except.ok (selectTrades db accountId)) []).1

/-- A fresh `accounts` table. -/
def emptyAccountDB : AccountDB := { rows := [], nextId := 1 }

/-- The rows a sequence of `saveTrade` inserts produces, ids assigned
consecutively from `startId`. -/
def insertedRows (ts : List TradeData) (startId : ℕ) : List TradeRow :=
  match ts with
  | [] => []
  | t :: rest => tradeToRow startId t :: insertedRows rest (startId + 1)

/-- Value of a JavaScript division `a / b` of finite numbers: IEEE
semantics give NaN for 0/0 and signed infinity for a nonzero numerator
over zero. -/
inductive JSFloat where
  | nan : JSFloat
  | inf : JSFloat
  | ninf : JSFloat
  | num (q : ℚ) : JSFloat
  deriving DecidableEq

/-- JavaScript `/` on finite values. -/
def jsDiv (a b : ℚ) : JSFloat :=
  if b = 0 then
    if a = 0 then JSFloat.nan
    else if 0 < a then JSFloat.inf
    else JSFloat.ninf
  else JSFloat.num (a / b)

/-- JavaScript `-` on numbers: any NaN operand yields NaN. -/
def jsSub : JSNum → JSNum → JSNum
  | JSNum.num a, JSNum.num b => JSNum.num (a - b)
  | _, _ => JSNum.nan

/-- JavaScript `Math.abs`. -/
def jsAbs : JSNum → JSNum
  | JSNum.nan => JSNum.nan
  | JSNum.num q => JSNum.num |q|

/-- JavaScript `/` lifted to possibly-NaN operands. -/
def jsDivN : JSNum → JSNum → JSFloat
  | JSNum.num a, JSNum.num b => jsDiv a b
  | _, _ => JSFloat.nan

/-- String JavaScript `toFixed(2)` produces on a division result:
`"NaN"`, `"Infinity"`, `"-Infinity"`, or the two-decimal rendering
(round to two places, ties to the larger value). -/
def jsFloatToFixed2 : JSFloat → String
  | JSFloat.nan => "NaN"
  | JSFloat.inf => "Infinity"
  | JSFloat.ninf => "-Infinity"
  | JSFloat.num q =>
    let n : ℤ := ⌊q * 100 + 1 / 2⌋
    if n < 0 then "-" ++ fixed2Digits (-n).toNat else fixed2Digits n.toNat

/-- Embedding of `calculateRR` (main.js lines 272-283): when the entry,
take-profit and stop-loss fields all parse to truthy (nonzero, non-NaN)
numbers, the risk/reward field is set to `1:` followed by
`(|tp - entry| / |entry - sl|).toFixed(2)`; otherwise the field keeps
its previous value. -/
def calculateRR (entry tp sl : JSNum) (rrField : String) : String :=
  if jsTruthy entry && jsTruthy tp && jsTruthy sl then
    "1:" ++ jsFloatToFixed2 (jsDivN (jsAbs (jsSub tp entry)) (jsAbs (jsSub entry sl)))
  else rrField

/-- Reachable contents of the `profile` table: the app starts with an
empty table and mutates it only through `saveProfile` (the id-1 upsert)
and `testDatabase` (the id-999 upsert run on every startup); `loadProfile`
does not write. -/
inductive ProfileReach : List ProfileRow → Prop where
  | init : ProfileReach []
  | save (t : List ProfileRow) (name currency : String) :
      ProfileReach t → ProfileReach (upsertProfile t name currency)
  | test (t : List ProfileRow) :
      ProfileReach t → ProfileReach (testDatabaseInsert t)

/-- A concrete winning trade with profit 10 and volume 1.5. -/
def sampleWin : Trade :=
  { id := 1, accountId := 1, symbol := "EURUSD", type := "buy",
    entryPrice := JSNum.num 1, exitPrice := none,
    takeProfit := JSNum.num 2, stopLoss := JSNum.num (1/2),
    lotSize := JSNum.num 1, volume := JSNum.num (3/2),
    profit := JSNum.num 10, commission := 0, rrRatio := "",
    strategy := "", session := "", duration := "",
    date := "2024-01-02T00:00:00.000Z" }

/-- A concrete losing trade with profit -3 and volume 2.5. -/
def sampleLoss : Trade :=
  { id := 2, accountId := 1, symbol := "EURUSD", type := "sell",
    entryPrice := JSNum.num 1, exitPrice := none,
    takeProfit := JSNum.num 2, stopLoss := JSNum.num (1/2),
    lotSize := JSNum.num 1, volume := JSNum.num (5/2),
    profit := JSNum.num (-3), commission := 0, rrRatio := "",
    strategy := "", session := "", duration := "",
    date := "2024-01-01T00:00:00.000Z" }

/-- Folding `jsAdd` over a NaN-free list of numbers yields the finite sum. -/
theorem jsAdd_foldl (l : List JSNum) (a : ℚ) (h : ∀ x ∈ l, x ≠ JSNum.nan) :
    l.foldl jsAdd (JSNum.num a) = JSNum.num (a + (l.map finVal).sum) := by
  induction l generalizing a with
  | nil => simp
  | cons x xs ih =>
    match x with
    | JSNum.nan => exact absurd rfl (h _ (List.mem_cons_self _ _))
    | JSNum.num q =>
      have hxs : ∀ y ∈ xs, y ≠ JSNum.nan := fun y hy => h y (List.mem_cons_of_mem _ hy)
      simp only [List.foldl_cons, jsAdd, List.map_cons, List.sum_cons]
      rw [ih (a + q) hxs]
      congr 1
      simp [finVal]
      ring

/-- C1: on an empty trade collection `updateStats` short-circuits: it
computes none of totalPnL, winRate, totalVolume, tradeCount (result
`none`), and the displayed statistics stay whatever they were before. -/
theorem updateStats_empty_short_circuits :
    updateStats [] = none ∧ ∀ prev : Option Stats, displayedStats [] prev = prev :=
  ⟨rfl, fun _ => rfl⟩

/-- C2: on every non-empty trade collection whose profits and volumes are
actual numbers, `updateStats` yields the sum of profits as totalPnL, the
percentage of strictly-winning trades rounded to one decimal place as
winRate, the sum of volumes as totalVolume, and the length as the trade
count. -/
theorem updateStats_nonempty_spec (trades : List Trade)
    (hne : trades ≠ [])
    (hp : ∀ t ∈ trades, t.profit ≠ JSNum.nan)
    (hv : ∀ t ∈ trades, t.volume ≠ JSNum.nan) :
    updateStats trades = some
      { totalPnL := JSNum.num ((trades.map fun t => finVal t.profit).sum),
        tradeCount := trades.length,
        winRate := toFixedVal 1
          (((trades.filter fun t => decide (0 < finVal t.profit)).length : ℚ) /
            (trades.length : ℚ) * 100),
        totalVolume := JSNum.num ((trades.map fun t => finVal t.volume).sum) } := by
  have hlen : trades.length ≠ 0 := fun h => hne (List.length_eq_zero.mp h)
  unfold updateStats
  rw [if_neg hlen]
  have hfoldp : trades.foldl (fun s t => jsAdd s t.profit) (JSNum.num 0)
      = JSNum.num ((trades.map fun t => finVal t.profit).sum) := by
    rw [← List.foldl_map (fun t : Trade => t.profit) jsAdd]
    rw [jsAdd_foldl _ 0 (by simpa using hp)]
    simp [List.map_map, Function.comp_def]
  have hfoldv : trades.foldl (fun s t => jsAdd s t.volume) (JSNum.num 0)
      = JSNum.num ((trades.map fun t => finVal t.volume).sum) := by
    rw [← List.foldl_map (fun t : Trade => t.volume) jsAdd]
    rw [jsAdd_foldl _ 0 (by simpa using hv)]
    simp [List.map_map, Function.comp_def]
  have hfilter : (trades.filter fun t => jsGtZero t.profit)
      = trades.filter fun t => decide (0 < finVal t.profit) := by
    apply List.filter_congr
    intro t ht
    cases hpt : t.profit with
    | nan => exact absurd hpt (hp t ht)
    | num q => simp [jsGtZero, finVal, hpt]
  rw [hfoldp, hfoldv, hfilter]

/-- Witness for C2: on profits `[10, -3]` and volumes `[1.5, 2.5]` the
aggregator yields totalPnL 7, tradeCount 2, winRate 50.0, totalVolume 4. -/
theorem updateStats_nonempty_spec_witness :
    updateStats [sampleWin, sampleLoss] = some
      { totalPnL := JSNum.num 7, tradeCount := 2,
        winRate := 50, totalVolume := JSNum.num 4 } := by
  have h := updateStats_nonempty_spec [sampleWin, sampleLoss]
    (by simp) (by simp [sampleWin, sampleLoss]) (by simp [sampleWin, sampleLoss])
  rw [h]
  norm_num [sampleWin, sampleLoss, finVal, toFixedVal]

/-- C3 counterexample: a read error from the storage engine does not
reach the caller of `loadAccounts` or `loadTrades` — both catch blocks
swallow it (no error is surfaced), contradicting the claim that
account-list and trade-list read errors reach the caller. -/
theorem load_read_errors_swallowed_cex :
    (loadAccounts (Except.error StoreErr.readFailed) []).2 = none ∧
    (loadAccounts (Except.error StoreErr.readFailed) []).2 ≠ some StoreErr.readFailed ∧
    (loadTrades (Except.error StoreErr.readFailed) []).2 = none ∧
    (loadTrades (Except.error StoreErr.readFailed) []).2 ≠ some StoreErr.readFailed :=
  ⟨rfl, by decide, rfl, by decide⟩

/-- C3 amended: the write operations (`saveProfile`, `saveAccount`,
`saveTrade`) surface storage errors to the caller unchanged; the read
operations swallow them: `loadAccounts` and `loadTrades` catch the error,
keep the previously loaded collection and surface nothing, and
`loadProfile` returns a normal absent result both when no profile row
exists and when the read itself fails. -/
theorem store_error_propagation (e : StoreErr)
    (prevA : List Account) (prevT : List Trade) :
    saveProfile (Except.error e) = some e ∧
    saveAccount (Except.error e) = some e ∧
    saveTrade (Except.error e) = some e ∧
    loadAccounts (Except.error e) prevA = (prevA, none) ∧
    loadTrades (Except.error e) prevT = (prevT, none) ∧
    loadProfile (Except.error e) = (none, none) ∧
    loadProfile (Except.ok []) = (none, none) :=
  ⟨rfl, rfl, rfl, rfl, rfl, rfl, rfl⟩

/-- Replacing by key keeps ids inside the two live keys and keeps one row
per key. -/
theorem insertOrReplaceProfile_invariant (t : List ProfileRow) (r : ProfileRow)
    (hr : r.id = 1 ∨ r.id = 999)
    (ht : ∀ x ∈ t, x.id = 1 ∨ x.id = 999)
    (hnd : (t.map ProfileRow.id).Nodup) :
    (∀ x ∈ insertOrReplaceProfile t r, x.id = 1 ∨ x.id = 999) ∧
    ((insertOrReplaceProfile t r).map ProfileRow.id).Nodup := by
  constructor
  · intro x hx
    rcases List.mem_cons.mp hx with hx | hx
    · exact hx ▸ hr
    · exact ht x (List.mem_of_mem_filter hx)
  · simp only [insertOrReplaceProfile, List.map_cons, List.nodup_cons]
    constructor
    · intro hmem
      rcases List.mem_map.mp hmem with ⟨x, hx, hid⟩
      have := List.of_mem_filter hx
      simp only [bne_iff_ne, ne_eq] at this
      exact this hid
    · exact List.Nodup.sublist (List.Sublist.map _ (List.filter_sublist t)) hnd

/-- A list of rows with pairwise-distinct ids drawn from the two keys 1
and 999 has at most two rows. -/
theorem length_le_two_of_ids (s : List ProfileRow)
    (hids : ∀ r ∈ s, r.id = 1 ∨ r.id = 999)
    (hnd : (s.map ProfileRow.id).Nodup) :
    s.length ≤ 2 := by
  have hsub : (s.map ProfileRow.id) ⊆ [1, 999] := by
    intro i hi
    rcases List.mem_map.mp hi with ⟨r, hr, hid⟩
    rcases hids r hr with h | h
    · simp [← hid, h]
    · simp [← hid, h]
  have := (hnd.subperm hsub).length_le
  simpa using this

/-- C4 counterexample: the two-row profile table reached by one
`saveProfile` followed by the startup `testDatabase` write is reachable,
refuting the claim that every reachable state holds at most one row. -/
theorem profile_two_rows_reachable_cex :
    ProfileReach (testDatabaseInsert (upsertProfile [] "Alice" "USD")) ∧
    (testDatabaseInsert (upsertProfile [] "Alice" "USD")).length = 2 :=
  ⟨ProfileReach.test _ (ProfileReach.save _ _ _ ProfileReach.init), rfl⟩

/-- C4 amended: `saveProfile` writes replace the row with fixed key 1
wholesale, but `testDatabase` also writes a row with key 999 on every
startup, so a reachable profile table holds up to two rows — one per key
in the pair 1, 999 — and never more. -/
theorem profile_table_at_most_two_rows (s : List ProfileRow)
    (h : ProfileReach s) :
    s.length ≤ 2 ∧ (∀ r ∈ s, r.id = 1 ∨ r.id = 999) := by
  have inv : (∀ r ∈ s, r.id = 1 ∨ r.id = 999) ∧ (s.map ProfileRow.id).Nodup := by
    induction h with
    | init => simp
    | save t name currency _ ih =>
      exact insertOrReplaceProfile_invariant t _ (Or.inl rfl) ih.1 ih.2
    | test t _ ih =>
      exact insertOrReplaceProfile_invariant t _ (Or.inr rfl) ih.1 ih.2
  exact ⟨length_le_two_of_ids s inv.1 inv.2, inv.1⟩

/-- Witness for C4's amended claim, at the concrete reachable one-write
state. -/
theorem profile_table_at_most_two_rows_witness :
    (upsertProfile [] "Alice" "USD").length ≤ 2 ∧
    (∀ r ∈ upsertProfile [] "Alice" "USD", r.id = 1 ∨ r.id = 999) :=
  profile_table_at_most_two_rows _ (ProfileReach.save _ _ _ ProfileReach.init)

/-- The trade fetch is the mapped image of the sorted filtered rows. -/
theorem listTradesForAccount_eq (db : TradeDB) (aid : ℕ) :
    listTradesForAccount db aid = (selectTrades db aid).map rowToTrade := rfl

/-- A freshly inserted trade shows up in the fetch for its account. -/
theorem inserted_trade_listed (db : TradeDB) (t : TradeData) :
    rowToTrade (tradeToRow db.nextId t) ∈
      listTradesForAccount (insertTrade db t) t.accountId := by
  rw [listTradesForAccount_eq]
  apply List.mem_map_of_mem
  rw [selectTrades, List.mem_insertionSort]
  apply List.mem_filter.mpr
  refine ⟨List.mem_append_right _ (List.mem_singleton_self _), ?_⟩
  simp [tradeToRow]

/-- C5: a trade built with no parseable exit price and no parseable
commission stores `null` for the exit price and `0` for the commission,
and the trade later fetched for the account carries exitPrice absent and
commission 0. -/
theorem insertTrade_omitted_exit_defaults (db : TradeDB) (aid : ℕ)
    (sym typ : String) (entryF tpF slF lotF volF profitF : JSNum)
    (rrF stratF sessF durF now : String) :
    (buildTrade aid sym typ entryF JSNum.nan tpF slF lotF volF profitF
        JSNum.nan rrF stratF sessF durF now).exitPrice = none ∧
    (buildTrade aid sym typ entryF JSNum.nan tpF slF lotF volF profitF
        JSNum.nan rrF stratF sessF durF now).commission = 0 ∧
    ∃ tr ∈ listTradesForAccount
        (insertTrade db (buildTrade aid sym typ entryF JSNum.nan tpF slF lotF
          volF profitF JSNum.nan rrF stratF sessF durF now)) aid,
      tr.id = db.nextId ∧ tr.exitPrice = none ∧ tr.commission = 0 := by
  refine ⟨rfl, rfl, ?_⟩
  exact ⟨rowToTrade (tradeToRow db.nextId _),
    inserted_trade_listed db _, rfl, rfl, rfl⟩

/-- C9: a trade whose exit-price field parses to exactly 0 is stored with
an absent exit price — `parseFloat(...) || null` collapses 0 to `null` —
so the fetched trade's exitPrice is `none`, not `some 0`. -/
theorem insertTrade_zero_exit_absent (db : TradeDB) (aid : ℕ)
    (sym typ : String) (entryF tpF slF lotF volF profitF : JSNum)
    (rrF stratF sessF durF now : String) :
    (buildTrade aid sym typ entryF (JSNum.num 0) tpF slF lotF volF profitF
        (JSNum.num 0) rrF stratF sessF durF now).exitPrice = none ∧
    ∃ tr ∈ listTradesForAccount
        (insertTrade db (buildTrade aid sym typ entryF (JSNum.num 0) tpF slF
          lotF volF profitF (JSNum.num 0) rrF stratF sessF durF now)) aid,
      tr.id = db.nextId ∧ tr.exitPrice = none ∧ tr.exitPrice ≠ some 0 := by
  have hx : jsOrNull (JSNum.num 0) = none := by simp [jsOrNull]
  refine ⟨by simp [buildTrade, hx], ?_⟩
  refine ⟨rowToTrade (tradeToRow db.nextId _), inserted_trade_listed db _,
    rfl, ?_, ?_⟩
  · simp [rowToTrade, tradeToRow, buildTrade, hx]
  · simp [rowToTrade, tradeToRow, buildTrade, hx]

/-- Rows accumulated by a sequence of inserts: the prior rows followed by
the new rows with consecutively assigned ids. -/
theorem foldl_insertTrade_rows (ts : List TradeData) (db : TradeDB) :
    (ts.foldl insertTrade db).rows = db.rows ++ insertedRows ts db.nextId := by
  induction ts generalizing db with
  | nil => simp [insertedRows]
  | cons t rest ih =>
    simp only [List.foldl_cons, insertedRows]
    rw [ih]
    simp [insertTrade]

/-- C7: after any sequence of trade inserts into a fresh store, the fetch
for an account returns only that account's trades, sorted by date
descending, and exactly the inserted rows of that account (as a
permutation of their mapped records). -/
theorem listTradesForAccount_spec (ts : List TradeData) (aid : ℕ) :
    (∀ tr ∈ listTradesForAccount (ts.foldl insertTrade emptyTradeDB) aid,
        tr.accountId = aid) ∧
    List.Sorted (fun a b : Trade => b.date ≤ a.date)
      (listTradesForAccount (ts.foldl insertTrade emptyTradeDB) aid) ∧
    (listTradesForAccount (ts.foldl insertTrade emptyTradeDB) aid).Perm
      (((insertedRows ts 1).filter fun r => r.account_id == aid).map rowToTrade) := by
  have hrows : (ts.foldl insertTrade emptyTradeDB).rows = insertedRows ts 1 := by
    simpa [emptyTradeDB] using foldl_insertTrade_rows ts emptyTradeDB
  refine ⟨?_, ?_, ?_⟩
  · intro tr htr
    rw [listTradesForAccount_eq] at htr
    rcases List.mem_map.mp htr with ⟨r, hr, hrt⟩
    rw [selectTrades, List.mem_insertionSort] at hr
    have heq : r.account_id = aid := by simpa using (List.of_mem_filter hr)
    rw [← hrt]
    simpa [rowToTrade] using heq
  · rw [listTradesForAccount_eq]
    have hs : List.Sorted dateDesc
        (selectTrades (ts.foldl insertTrade emptyTradeDB) aid) :=
      List.sorted_insertionSort dateDesc _
    exact List.Pairwise.map rowToTrade (fun a b h => h) hs
  · rw [listTradesForAccount_eq, selectTrades, hrows]
    exact (List.perm_insertionSort dateDesc _).map rowToTrade

/-- The id-1 row just upserted is the only row the profile query sees. -/
theorem selectProfile_upsert (t : List ProfileRow) (n c : String) :
    selectProfile (upsertProfile t n c) =
      [{ id := 1, name := n, email := "", experience := "",
         currency := c, timezone := "" }] := by
  unfold selectProfile upsertProfile insertOrReplaceProfile
  simp only [List.filter_cons, beq_self_eq_true, if_true, List.filter_filter]
  have hnil : ∀ s : List ProfileRow,
      (s.filter fun a => a.id == 1 && a.id != 1) = [] := by
    intro s
    apply List.filter_eq_nil_iff.mpr
    intro a _
    simp
  rw [hnil]

/-- C6: fetching after an upsert returns exactly the upserted name and
currency; after two upserts with different arguments only the second pair
is retrievable. -/
theorem profile_upsert_fetch (t : List ProfileRow) (n c n2 c2 : String)
    (hdiff : n ≠ n2 ∨ c ≠ c2) :
    fetchProfile (upsertProfile t n c) = some { name := n, currency := c } ∧
    fetchProfile (upsertProfile (upsertProfile t n c) n2 c2)
      = some { name := n2, currency := c2 } ∧
    fetchProfile (upsertProfile (upsertProfile t n c) n2 c2)
      ≠ some { name := n, currency := c } := by
  have h1 : ∀ (s : List ProfileRow) (a b : String),
      fetchProfile (upsertProfile s a b) = some { name := a, currency := b } := by
    intro s a b
    unfold fetchProfile
    rw [selectProfile_upsert]
    rfl
  refine ⟨h1 t n c, h1 _ n2 c2, ?_⟩
  rw [h1]
  intro hcontra
  have heq := Option.some.inj hcontra
  rcases hdiff with h | h
  · exact h (congrArg Profile.name heq).symm
  · exact h (congrArg Profile.currency heq).symm

/-- Witness for C6 at concrete profiles: Bob/EUR replaces Alice/USD. -/
theorem profile_upsert_fetch_witness :
    fetchProfile (upsertProfile [] "Alice" "USD")
      = some { name := "Alice", currency := "USD" } ∧
    fetchProfile (upsertProfile (upsertProfile [] "Alice" "USD") "Bob" "EUR")
      = some { name := "Bob", currency := "EUR" } ∧
    fetchProfile (upsertProfile (upsertProfile [] "Alice" "USD") "Bob" "EUR")
      ≠ some { name := "Alice", currency := "USD" } :=
  profile_upsert_fetch [] "Alice" "USD" "Bob" "EUR" (Or.inl (by decide))

/-- C8: account creation performs no numeric validation: the built record
always has currentBalance equal to initialBalance, a non-numeric balance
input makes both NaN, and the insert appends the row to the table as-is. -/
theorem insertAccount_persists_unvalidated (db : AccountDB) (nm typ : String)
    (balF : JSNum) (br lev instr : String) :
    (buildAccount nm typ balF br lev instr).currentBalance
      = (buildAccount nm typ balF br lev instr).initialBalance ∧
    (balF = JSNum.nan →
      (buildAccount nm typ balF br lev instr).initialBalance = JSNum.nan ∧
      (buildAccount nm typ balF br lev instr).currentBalance = JSNum.nan) ∧
    (insertAccount db (buildAccount nm typ balF br lev instr)).rows
      = db.rows ++ [{ id := db.nextId, name := nm, type := typ,
                      initial_balance := balF, current_balance := balF,
                      broker := br, leverage := lev,
                      instruments := jsOrEmpty instr }] := by
  refine ⟨rfl, ?_, rfl⟩
  intro h
  exact ⟨by simp [buildAccount, h], by simp [buildAccount, h]⟩

/-- Witness for C8: a NaN balance input is persisted as NaN in both
balance fields. -/
theorem insertAccount_persists_unvalidated_witness :
    (buildAccount "Main" "live" JSNum.nan "X" "1:50" "").currentBalance = JSNum.nan ∧
    (buildAccount "Main" "live" JSNum.nan "X" "1:50" "").initialBalance = JSNum.nan :=
  ⟨((insertAccount_persists_unvalidated emptyAccountDB "Main" "live" JSNum.nan
      "X" "1:50" "").2.1 rfl).2,
   ((insertAccount_persists_unvalidated emptyAccountDB "Main" "live" JSNum.nan
      "X" "1:50" "").2.1 rfl).1⟩

/-- C10 counterexample: with entry, take-profit and stop-loss all equal
(and nonzero), entryPrice equals stopLoss yet the produced ratio is
`1:NaN` (0/0), not the claimed infinite sentinel `1:Infinity`. -/
theorem calculateRR_zero_over_zero_cex :
    calculateRR (JSNum.num 5) (JSNum.num 5) (JSNum.num 5) "prev" = "1:NaN" ∧
    ("1:NaN" : String) ≠ "1:Infinity" := by
  constructor
  · norm_num [calculateRR, jsTruthy, jsSub, jsAbs, jsDivN, jsDiv, jsFloatToFixed2]
    rfl
  · decide

/-- C10 amended: `calculateRR` recomputes the field only when entry,
take-profit and stop-loss all parse to nonzero numbers (otherwise the
field is left unchanged), and then produces `1:` followed by
`|tp - entry| / |entry - sl|` rounded to two decimals; when entry equals
stop-loss the unguarded division yields `1:Infinity` if the reward is
nonzero and `1:NaN` if take-profit also equals entry. -/
theorem calculateRR_spec (e t s : ℚ) (rr : String)
    (he : e ≠ 0) (ht : t ≠ 0) (hs : s ≠ 0) :
    calculateRR (JSNum.num e) (JSNum.num t) (JSNum.num s) rr
        = "1:" ++ jsFloatToFixed2 (jsDiv |t - e| |e - s|) ∧
    (e = s → t ≠ e →
      calculateRR (JSNum.num e) (JSNum.num t) (JSNum.num s) rr = "1:Infinity") ∧
    (e = s → t = e →
      calculateRR (JSNum.num e) (JSNum.num t) (JSNum.num s) rr = "1:NaN") ∧
    (∀ a b c : JSNum, (jsTruthy a && jsTruthy b && jsTruthy c) = false →
      calculateRR a b c rr = rr) := by
  have hmain : calculateRR (JSNum.num e) (JSNum.num t) (JSNum.num s) rr
      = "1:" ++ jsFloatToFixed2 (jsDiv |t - e| |e - s|) := by
    unfold calculateRR
    simp [jsTruthy, he, ht, hs, jsSub, jsAbs, jsDivN]
  refine ⟨hmain, ?_, ?_, ?_⟩
  · intro hes hte
    have h0 : |e - s| = 0 := by rw [hes, sub_self, abs_zero]
    have hpos : 0 < |t - e| := abs_pos.mpr (sub_ne_zero.mpr hte)
    rw [hmain, h0]
    rw [show jsDiv |t - e| 0 = JSFloat.inf by simp [jsDiv, hpos.ne', hpos]]
    rfl
  · intro hes hte
    have h0 : |e - s| = 0 := by rw [hes, sub_self, abs_zero]
    have h1 : |t - e| = 0 := by rw [hte, sub_self, abs_zero]
    rw [hmain, h0, h1]
    rw [show jsDiv 0 0 = JSFloat.nan by simp [jsDiv]]
    rfl
  · intro a b c hfalse
    unfold calculateRR
    rw [hfalse]
    simp

/-- Witness for C10's amended claim: entry 1, take-profit 2, stop-loss 1
(entry equals stop-loss, nonzero reward) yields `1:Infinity`. -/
theorem calculateRR_spec_witness :
    calculateRR (JSNum.num 1) (JSNum.num 2) (JSNum.num 1) "x" = "1:Infinity" :=
  (calculateRR_spec 1 2 1 "x" (by norm_num) (by norm_num) (by norm_num)).2.1
    rfl (by norm_num)
